import Mathlib

/-!
Shallow embedding of the core of the `rypi-dev/logger-server` repository:
the log-level helpers (`internal/logger/log_levels`), the validation helpers
(`internal/utils/utils.go`), the per-client rate limiter
(`internal/ratelimit`), and the bounded SQLite-backed log store
(`internal/logger/sqlite_logger.go`).

Modelling conventions:
* Go `int` values are modelled as `Int`; Go `time.Time` instants are
  modelled as `Nat` nanosecond readings of the monotonic clock, and Go
  `time.Duration` values as `Int` nanoseconds.
* Go maps are modelled as insertion-ordered association lists.  Go map
  iteration order is unspecified; the model fixes it to list order, which
  the spec allows (ties in the eviction scan are "broken arbitrarily").
* The SQLite table is modelled as the list of its rows in insertion
  (`id`-ascending) order; `id` is the `AUTOINCREMENT` primary key starting
  at 1.  `ORDER BY <col>` is realized as a stable sort, so rows that
  compare equal are returned in table-scan (insertion) order; SQLite
  leaves that tie order unspecified.
* Fallible external effects (JSON serialization of the context document,
  execution of the prepared INSERT statement) are modelled as explicit
  inputs describing their outcome.
-/

namespace LoggerServer

/-! ## Log levels (`internal/logger/log_levels`, `src/unnamed/part_008`) -/

/-- ASCII case mapping of one character, the fragment of Go's
`strings.ToUpper` relevant to log-level strings. -/
def upperChar (c : Char) : Char :=
  if 'a' ≤ c ∧ c ≤ 'z' then Char.ofNat (c.toNat - 32) else c

/-- Go `strings.ToUpper` (ASCII fragment), applied character by character. -/
def strToUpper (s : String) : String :=
  String.mk (s.data.map upperChar)

/-- Membership in the Go map `allowedLogLevels`, whose keys are the six
canonical upper-case level names. -/
def allowedLogLevel (l : String) : Bool :=
  l = "TRACE" || l = "DEBUG" || l = "INFO" || l = "WARN" || l = "ERROR" || l = "FATAL"

/-- `IsValidLogLevel` checks if the level is valid (after upper-casing). -/
def IsValidLogLevel (level : String) : Bool :=
  allowedLogLevel (strToUpper level)

/-- `NormalizeLogLevel` ensures the level is uppercased. -/
def NormalizeLogLevel (level : String) : String :=
  strToUpper level

/-- Lookup in the Go map `orderMap`; as in Go, a missing key yields the
zero value `0` (the ordinal of TRACE). -/
def orderMap (l : String) : Nat :=
  if l = "TRACE" then 0
  else if l = "DEBUG" then 1
  else if l = "INFO" then 2
  else if l = "WARN" then 3
  else if l = "ERROR" then 4
  else if l = "FATAL" then 5
  else 0

/-- `LevelLessThan` returns true if `a` is less severe than `b`. -/
def LevelLessThan (a b : String) : Bool :=
  decide (orderMap a < orderMap b)

/-! ## Validation helpers (`internal/utils/utils.go`) -/

/-- `ValidateMaxRequests` checks that `maxRequests` is in an acceptable range. -/
def ValidateMaxRequests (maxRequests : Int) : Except String Unit :=
  if maxRequests < 1 ∨ maxRequests > 100000 then
    Except.error "maxRequests must be between 1 and 100000"
  else Except.ok ()

/-- `ValidateWindow` checks that a duration is reasonable (greater than 0). -/
def ValidateWindow (window : Int) : Except String Unit :=
  if window ≤ 0 then Except.error "window duration must be > 0"
  else Except.ok ()

/-- `ValidatePageLimit` defaults out-of-range low values and rejects a too
large limit. -/
def ValidatePageLimit (page limit : Int) : Except String (Int × Int) :=
  let page := if page < 1 then 1 else page
  let limit := if limit < 1 then 10 else limit
  if limit > 1000 then Except.error "limit too large"
  else Except.ok (page, limit)

/-! ## Rate limiter (`internal/ratelimit`, `src/unnamed/part_009`) -/

/-- Per-client window state (`clientData`): request count in the current
window and the window-start instant `firstSeen`. -/
structure clientData where
  count : Int
  firstSeen : Nat
  deriving DecidableEq

/-- The `RateLimiter` state: the tracked-clients table plus its
configuration.  The Prometheus metrics, mutex, ticker and stop channel
carry no admission-relevant state and are omitted. -/
structure RateLimiter where
  requests : List (String × clientData)
  maxRequests : Int
  maxClients : Int
  window : Int
  minLevel : String
  perLevelLimits : List (String × Int)
  deriving DecidableEq

/-- Go map read `rl.requests[ip]`. -/
def lookupClient (ip : String) : List (String × clientData) → Option clientData
  | [] => none
  | (k, d) :: rest => if k = ip then some d else lookupClient ip rest

/-- Go map write `rl.requests[ip] = d` (replace an existing binding, else
append). -/
def setClient (ip : String) (d : clientData) :
    List (String × clientData) → List (String × clientData)
  | [] => [(ip, d)]
  | (k, e) :: rest =>
      if k = ip then (ip, d) :: rest else (k, e) :: setClient ip d rest

/-- Go `delete(rl.requests, ip)`. -/
def deleteClient (ip : String) :
    List (String × clientData) → List (String × clientData)
  | [] => []
  | (k, e) :: rest => if k = ip then rest else (k, e) :: deleteClient ip rest

/-- Go map read of the per-level override map. -/
def lookupLimit (level : String) : List (String × Int) → Option Int
  | [] => none
  | (k, m) :: rest => if k = level then some m else lookupLimit level rest

/-- `NewRateLimiterWithLevel` validates `maxRequests` and `window` and
builds the limiter with an empty table.  Note: `maxClients`, `minLevel`
and `perLevelLimits` are stored without validation. -/
def NewRateLimiterWithLevel (maxRequests window maxClients : Int)
    (minLevel : String) (perLevelLimits : List (String × Int)) :
    Except String RateLimiter :=
  match ValidateMaxRequests maxRequests with
  | Except.error e => Except.error e
  | Except.ok _ =>
    match ValidateWindow window with
    | Except.error e => Except.error e
    | Except.ok _ =>
      Except.ok
        { requests := []
          maxRequests := maxRequests
          maxClients := maxClients
          window := window
          minLevel := minLevel
          perLevelLimits := perLevelLimits }

/-- The scan inside `evictOldest`: fold over the table carrying the
current `(oldestIP, oldestTime)` pair, starting from the zero values
`("", 0)`; an entry replaces the pair when `oldestTime.IsZero()` or its
`firstSeen` is strictly earlier (Go `Before`). -/
def scanOldest : List (String × clientData) → String × Nat → String × Nat
  | [], acc => acc
  | (ip, d) :: rest, (oldestIP, oldestTime) =>
      if oldestTime = 0 ∨ d.firstSeen < oldestTime then
        scanOldest rest (ip, d.firstSeen)
      else scanOldest rest (oldestIP, oldestTime)

/-- `evictOldest`: return unchanged while the table does not exceed
`maxClients`; otherwise delete the entry found by the linear scan. -/
def evictOldest (rl : RateLimiter) : RateLimiter :=
  if (rl.requests.length : Int) ≤ rl.maxClients then rl
  else
    { rl with
      requests := deleteClient (scanOldest rl.requests ("", 0)).1 rl.requests }

/-- `allow`: the admission decision for one request of client `ip` against
quota `maxRequests` at instant `now`.  Returns
`(allowed, retryAfter, new state)`; `retryAfter` is a duration in
nanoseconds (0 on every allowed request, as in the Go code). -/
def allow (rl : RateLimiter) (ip : String) (maxRequests : Int) (now : Nat) :
    Bool × Int × RateLimiter :=
  let rl :=
    if lookupClient ip rl.requests = none ∧
        (rl.requests.length : Int) ≥ rl.maxClients then
      evictOldest rl
    else rl
  match lookupClient ip rl.requests with
  | none =>
      (true, 0, { rl with requests := setClient ip ⟨1, now⟩ rl.requests })
  | some client =>
      if (now : Int) - (client.firstSeen : Int) > rl.window then
        (true, 0, { rl with requests := setClient ip ⟨1, now⟩ rl.requests })
      else if client.count ≥ maxRequests then
        (false, rl.window - ((now : Int) - (client.firstSeen : Int)), rl)
      else
        (true, 0,
          { rl with
            requests := setClient ip ⟨client.count + 1, client.firstSeen⟩ rl.requests })

/-- The effective quota the middleware passes to `allow`: the per-level
override when present, else the baseline `maxRequests`.  (A nil and an
empty override map behave identically: lookup fails in both.) -/
def effectiveQuota (rl : RateLimiter) (level : String) : Int :=
  match lookupLimit level rl.perLevelLimits with
  | some m => m
  | none => rl.maxRequests

/-- One request through `Middleware`: `levelStr` is the `X-Log-Level`
header value (empty when absent), `ip` the extracted client key.  Returns
`(allowed, Retry-After header seconds when denied, new state)`.  Go's
`int(retryAfter.Seconds())` truncates toward zero and is modelled exactly
by `Int.tdiv` on nanoseconds. -/
def middlewareStep (rl : RateLimiter) (levelStr ip : String) (now : Nat) :
    Bool × Option Int × RateLimiter :=
  let level := NormalizeLogLevel levelStr
  if LevelLessThan level rl.minLevel then (true, none, rl)
  else
    match allow rl ip (effectiveQuota rl level) now with
    | (true, _, rl1) => (true, none, rl1)
    | (false, retryAfter, rl1) =>
        let seconds := Int.tdiv retryAfter 1000000000
        let seconds := if seconds < 0 then 0 else seconds
        (false, some seconds, rl1)

/-- A sequence of `Middleware` requests by one client with a fixed header,
at the given instants; returns the admission decisions in order and the
final state. -/
def runRequests (rl : RateLimiter) (levelStr ip : String) :
    List Nat → List Bool × RateLimiter
  | [] => ([], rl)
  | t :: rest =>
      let step := middlewareStep rl levelStr ip t
      let tail := runRequests step.2.2 levelStr ip rest
      (step.1 :: tail.1, tail.2)

/-! ## Bounded log store (`internal/logger/sqlite_logger.go`) -/

/-- One row of the `logs` table: `id` is the `AUTOINCREMENT` primary key;
`timestamp` is the RFC3339 text written by `Write`; `context` is the
serialized context document (possibly empty). -/
structure Row where
  id : Nat
  level : String
  message : String
  timestamp : String
  context : String
  deriving DecidableEq

/-- The `SQLiteLogger` state: the table rows in insertion order, the next
`AUTOINCREMENT` id, and the configuration.  The database handle, mutex,
prepared statement and cleanup goroutine plumbing are omitted;
`totalErrors` is the error counter the Go code increments. -/
structure SQLiteLogger where
  rows : List Row
  nextId : Nat
  maxRows : Int
  minLevel : String
  totalErrors : Nat
  deriving DecidableEq

/-- `NewSQLiteLogger` (state part): empty table, ids from 1, `minLevel`
normalized at construction. -/
def NewSQLiteLogger (maxRows : Int) (minLevel : String) : SQLiteLogger :=
  { rows := []
    nextId := 1
    maxRows := maxRows
    minLevel := NormalizeLogLevel minLevel
    totalErrors := 0 }

/-- Errors surfaced by `Write`. -/
inductive WriteError where
  | invalidLevel (level : String)
  | insertFailed
  deriving DecidableEq

/-- `Write` (the store's Append): normalize and re-validate the level,
silently drop levels below `minLevel`, fall back to an empty JSON document
when context serialization fails, then insert.
`ctxSerialized` is the outcome of `utils.MarshalContext entry.Context`
(`some s` on success — `s = ""` for a nil context — and `none` on
serialization failure); `tsFormatted` is
`entry.Timestamp.Format(time.RFC3339)`; `insertFails` tells whether the
INSERT statement itself fails. -/
def Write (l : SQLiteLogger) (level message tsFormatted : String)
    (ctxSerialized : Option String) (insertFails : Bool) :
    SQLiteLogger × Option WriteError :=
  let entryLevel := NormalizeLogLevel level
  if ¬ IsValidLogLevel entryLevel then
    ({ l with totalErrors := l.totalErrors + 1 }, some (WriteError.invalidLevel level))
  else if LevelLessThan entryLevel l.minLevel then
    (l, none)
  else
    let ctxJSON := match ctxSerialized with
      | some s => s
      | none => "\x7b\x7d"
    if insertFails then
      ({ l with totalErrors := l.totalErrors + 1 }, some WriteError.insertFailed)
    else
      ({ l with
          rows := l.rows ++ [⟨l.nextId, entryLevel, message, tsFormatted, ctxJSON⟩]
          nextId := l.nextId + 1 }, none)

/-- Byte-wise comparison of two ASCII strings as character lists: the
`memcmp` order SQLite's BINARY collation applies to TEXT values. -/
def lexLe : List Char → List Char → Bool
  | [], _ => true
  | _ :: _, [] => false
  | a :: as, b :: bs => if a = b then lexLe as bs else decide (a < b)

/-- TEXT-column comparison of two stored timestamps. -/
def tsLe (a b : String) : Bool :=
  lexLe a.data b.data

/-- The row order produced by `ORDER BY timestamp DESC`: `a` may precede
`b` when `b.timestamp ≤ a.timestamp`. -/
def rowLeP (a b : Row) : Prop :=
  tsLe b.timestamp a.timestamp = true

instance : DecidableRel rowLeP := fun a b =>
  inferInstanceAs (Decidable (tsLe b.timestamp a.timestamp = true))

/-- The sequence of rows `QueryLogs` pages through: the level-filtered
table sorted by `ORDER BY timestamp DESC`.  The sort is stable, so rows
with equal timestamps keep table-scan (insertion) order; SQLite leaves
that tie order unspecified.  -/
def orderedRows (l : SQLiteLogger) (level : String) : List Row :=
  List.insertionSort rowLeP
    (if level ≠ "" then l.rows.filter (fun r => r.level == level) else l.rows)

/-- `QueryLogs`: validate pagination, validate a non-empty level filter,
then return the page `LIMIT limit OFFSET (page-1)*limit` of the
recency-ordered rows. -/
def QueryLogs (l : SQLiteLogger) (level : String) (page limit : Int) :
    Except String (List Row) :=
  match ValidatePageLimit page limit with
  | Except.error e => Except.error e
  | Except.ok (page, limit) =>
    if level ≠ "" ∧ ¬ IsValidLogLevel level then
      Except.error "invalid log level"
    else
      let offset := (page - 1) * limit
      Except.ok (((orderedRows l level).drop offset.toNat).take limit.toNat)

/-- Descending order on ids, as in `SELECT id FROM logs ORDER BY id DESC`. -/
def idDescLe (a b : Nat) : Prop :=
  b ≤ a

instance : DecidableRel idDescLe := fun a b =>
  inferInstanceAs (Decidable (b ≤ a))

/-- The id set selected by `GenerateCleanupQuery`'s subquery
`SELECT id FROM logs ORDER BY id DESC LIMIT maxRows`: the `maxRows`
largest ids. -/
def topIds (l : SQLiteLogger) : List Nat :=
  (List.insertionSort idDescLe (l.rows.map Row.id)).take l.maxRows.toNat

/-- `cleanup`: a no-op when `maxRows ≤ 0`, otherwise execute
`DELETE FROM logs WHERE id NOT IN (SELECT id FROM logs ORDER BY id DESC
LIMIT maxRows)` (from `utils.GenerateCleanupQuery`). -/
def cleanup (l : SQLiteLogger) : SQLiteLogger :=
  if l.maxRows ≤ 0 then l
  else { l with rows := l.rows.filter (fun r => decide (r.id ∈ topIds l)) }

/-! ## Concrete fixtures used by witnesses and counterexamples -/

/-- A limiter at capacity 2, as in the repository's own test
`TestEviction_WhenMaxClientsExceeded`. -/
def rlEvict : RateLimiter :=
  { requests := [], maxRequests := 5, maxClients := 2, window := 60,
    minLevel := "INFO", perLevelLimits := [] }

/-- The table after three distinct clients each issue one request. -/
def evictRun : RateLimiter :=
  (allow ((allow ((allow rlEvict "1.1.1.1" 5 1).2.2) "2.2.2.2" 5 2).2.2)
    "3.3.3.3" 5 3).2.2

/-- A store holding two rows with equal timestamps, ids 1 and 2. -/
def c2Store : SQLiteLogger :=
  { rows := [⟨1, "INFO", "a", "2025-01-01T00:00:00Z", ""⟩,
             ⟨2, "INFO", "b", "2025-01-01T00:00:00Z", ""⟩],
    nextId := 3, maxRows := 0, minLevel := "TRACE", totalErrors := 0 }

/-- The result `QueryLogs c2Store "" 1 10` produces. -/
def c2Rows : List Row :=
  [⟨1, "INFO", "a", "2025-01-01T00:00:00Z", ""⟩,
   ⟨2, "INFO", "b", "2025-01-01T00:00:00Z", ""⟩]

/-- The ordering the spec asserts for Query results: timestamp descending
with ties broken by insertion order (sequence id) descending.  Spec-side
definition, for comparison against the behaviour of `QueryLogs`. -/
def specRecencyOrdered (rows : List Row) : Prop :=
  List.Pairwise
    (fun a b => tsLe a.timestamp b.timestamp = false ∨
      (a.timestamp = b.timestamp ∧ b.id < a.id)) rows

/-- Ten appends with backdated timestamps: entry `i` carries timestamp
text that orders opposite to insertion order. -/
def c5Pairs : List (String × String) :=
  [("m1", "t10"), ("m2", "t09"), ("m3", "t08"), ("m4", "t07"), ("m5", "t06"),
   ("m6", "t05"), ("m7", "t04"), ("m8", "t03"), ("m9", "t02"), ("m10", "t01")]

/-- The store with `maxRows = 5` after the ten appends. -/
def c5Store : SQLiteLogger :=
  c5Pairs.foldl (fun s p => (Write s "INFO" p.1 p.2 (some "") false).1)
    (NewSQLiteLogger 5 "TRACE")

/-- A limiter with minimum severity INFO and an empty table. -/
def rlByp : RateLimiter :=
  { requests := [], maxRequests := 5, maxClients := 10, window := 60,
    minLevel := "INFO", perLevelLimits := [] }

/-- A limiter tracking one client whose window is saturated. -/
def rlDeny : RateLimiter :=
  { requests := [("ip1", ⟨3, 5⟩)], maxRequests := 3, maxClients := 10,
    window := 3000000000, minLevel := "TRACE", perLevelLimits := [] }

/-- A limiter tracking one client whose window has expired. -/
def rlStale : RateLimiter :=
  { requests := [("ip2", ⟨2, 10⟩)], maxRequests := 3, maxClients := 10,
    window := 50, minLevel := "TRACE", perLevelLimits := [] }

/-- A limiter with baseline quota 2 used to exhaust a window. -/
def rlQuota : RateLimiter :=
  { requests := [], maxRequests := 2, maxClients := 10, window := 100,
    minLevel := "INFO", perLevelLimits := [] }

/-! ## Basic facts about levels and the timestamp order -/

theorem orderMap_of_not_allowed (l : String) (h : allowedLogLevel l = false) :
    orderMap l = 0 := by
  simp only [allowedLogLevel, Bool.or_eq_false_iff, decide_eq_false_iff_not] at h
  obtain ⟨⟨⟨⟨⟨h1, h2⟩, h3⟩, h4⟩, h5⟩, h6⟩ := h
  simp [orderMap, h1, h2, h3, h4, h5, h6]

theorem lexLe_trans :
    ∀ as bs cs : List Char, lexLe as bs = true → lexLe bs cs = true →
      lexLe as cs = true := by
  intro as
  induction as with
  | nil => intro bs cs _ _; rfl
  | cons a as ih =>
    intro bs cs h1 h2
    cases bs with
    | nil => simp [lexLe] at h1
    | cons b bs =>
      cases cs with
      | nil => simp [lexLe] at h2
      | cons c cs =>
        simp only [lexLe] at h1 h2 ⊢
        by_cases hab : a = b
        · subst hab
          by_cases hbc : a = c
          · subst hbc
            simp only [if_pos rfl] at h1 h2 ⊢
            exact ih bs cs h1 h2
          · simp only [if_pos rfl] at h1
            simp only [if_neg hbc] at h2 ⊢
            exact h2
        · by_cases hbc : b = c
          · subst hbc
            simp only [if_neg hab] at h1 ⊢
            exact h1
          · simp only [if_neg hab] at h1
            simp only [if_neg hbc] at h2
            have hab' : a < b := of_decide_eq_true h1
            have hbc' : b < c := of_decide_eq_true h2
            have hac : a < c := lt_trans hab' hbc'
            simp [ne_of_lt hac, hac]

theorem lexLe_total (as bs : List Char) :
    lexLe as bs = true ∨ lexLe bs as = true := by
  induction as generalizing bs with
  | nil => exact Or.inl rfl
  | cons a as ih =>
    cases bs with
    | nil => exact Or.inr rfl
    | cons b bs =>
      simp only [lexLe]
      by_cases hab : a = b
      · subst hab
        simp only [if_pos rfl]
        exact ih bs
      · rcases lt_or_gt_of_ne hab with h | h
        · exact Or.inl (by simp [if_neg hab, h])
        · refine Or.inr ?_
          have hba : ¬ b = a := fun e => hab e.symm
          simp [if_neg hba, h]

instance : IsTrans Row rowLeP :=
  ⟨fun _ _ _ h1 h2 => lexLe_trans _ _ _ h2 h1⟩

instance : IsTotal Row rowLeP :=
  ⟨fun a b => lexLe_total b.timestamp.data a.timestamp.data⟩

/-! ## Behaviour of `allow` -/

theorem evictOldest_of_nil (rl : RateLimiter) (h : rl.requests = []) :
    evictOldest rl = rl := by
  cases rl with
  | mk reqs mr mc w ml pll =>
    simp only at h
    subst h
    unfold evictOldest
    split
    · rfl
    · rfl

theorem allow_tracked_deny (rl : RateLimiter) (ip : String) (m : Int)
    (now : Nat) (c : Int) (t₀ : Nat)
    (hreq : lookupClient ip rl.requests = some ⟨c, t₀⟩)
    (hexp : ¬ ((now : Int) - (t₀ : Int) > rl.window))
    (hcnt : c ≥ m) :
    allow rl ip m now = (false, rl.window - ((now : Int) - (t₀ : Int)), rl) := by
  simp [allow, hreq, hexp, hcnt]

theorem allow_tracked_increment (rl : RateLimiter) (ip : String) (m : Int)
    (now : Nat) (c : Int) (t₀ : Nat)
    (hreq : lookupClient ip rl.requests = some ⟨c, t₀⟩)
    (hexp : ¬ ((now : Int) - (t₀ : Int) > rl.window))
    (hcnt : ¬ c ≥ m) :
    allow rl ip m now =
      (true, 0, { rl with requests := setClient ip ⟨c + 1, t₀⟩ rl.requests }) := by
  simp [allow, hreq, hexp, hcnt]

theorem allow_of_nil (rl : RateLimiter) (ip : String) (m : Int) (now : Nat)
    (h : rl.requests = []) :
    allow rl ip m now =
      (true, 0, { rl with requests := [(ip, ⟨1, now⟩)] }) := by
  have he :
      (if lookupClient ip rl.requests = none ∧
          (rl.requests.length : Int) ≥ rl.maxClients then evictOldest rl
       else rl) = rl := by
    split
    · exact evictOldest_of_nil rl h
    · rfl
  simp only [allow]
  rw [he, h]
  simp [lookupClient, setClient]

/-! ## Exhausting a quota inside one window (claim C4 machinery) -/

theorem runRequests_exhaust :
    ∀ (n : Nat) (ts : List Nat) (rl : RateLimiter) (levelStr ip : String)
      (q : Int) (t₀ : Nat) (c : Int),
      ts.length = n + 1 →
      rl.requests = [(ip, ⟨c, t₀⟩)] →
      LevelLessThan (NormalizeLogLevel levelStr) rl.minLevel = false →
      effectiveQuota rl (NormalizeLogLevel levelStr) = q →
      (∀ t ∈ ts, (t : Int) - (t₀ : Int) ≤ rl.window) →
      c = q - n →
      (runRequests rl levelStr ip ts).1 = List.replicate n true ++ [false] := by
  intro n
  induction n with
  | zero =>
    intro ts rl levelStr ip q t₀ c hlen hreq hlevel hq hts hc
    obtain ⟨t, rfl⟩ := List.length_eq_one.mp hlen
    have ht := hts t (by simp)
    have hlu : lookupClient ip rl.requests = some ⟨c, t₀⟩ := by
      rw [hreq]; simp [lookupClient]
    have hdeny :=
      allow_tracked_deny rl ip q t c t₀ hlu (by omega) (by omega)
    have hstep : middlewareStep rl levelStr ip t =
        (false,
          some (if Int.tdiv (rl.window - ((t : Int) - (t₀ : Int))) 1000000000 < 0
            then 0
            else Int.tdiv (rl.window - ((t : Int) - (t₀ : Int))) 1000000000),
          rl) := by
      simp [middlewareStep, hlevel, hq, hdeny]
    simp only [runRequests]
    rw [hstep]
    simp [runRequests]
  | succ n ih =>
    intro ts rl levelStr ip q t₀ c hlen hreq hlevel hq hts hc
    cases ts with
    | nil => simp at hlen
    | cons t rest =>
      have hlen' : rest.length = n + 1 := by simpa using hlen
      have ht := hts t (by simp)
      have hlu : lookupClient ip rl.requests = some ⟨c, t₀⟩ := by
        rw [hreq]; simp [lookupClient]
      have hinc :=
        allow_tracked_increment rl ip q t c t₀ hlu (by omega) (by omega)
      have hreq1 :
          ({ rl with requests := setClient ip ⟨c + 1, t₀⟩ rl.requests } :
            RateLimiter).requests = [(ip, ⟨c + 1, t₀⟩)] := by
        simp [hreq, setClient]
      have htail :=
        ih rest { rl with requests := setClient ip ⟨c + 1, t₀⟩ rl.requests }
          levelStr ip q t₀ (c + 1) hlen' hreq1 hlevel hq
          (fun u hu => hts u (List.mem_cons_of_mem t hu)) (by omega)
      have hstep : middlewareStep rl levelStr ip t =
          (true, none,
            { rl with requests := setClient ip ⟨c + 1, t₀⟩ rl.requests }) := by
        simp [middlewareStep, hlevel, hq, hinc]
      simp only [runRequests]
      rw [hstep]
      simp [htail, List.replicate_succ]

/-- Claim C4: for every client and effective quota `q ≥ 1`, submitting
`q+1` requests at or above the minimum severity within one unexpired
window yields allow for the first `q` requests and exactly one denial, at
the `(q+1)`th request. -/
theorem admit_quota_exhaustion :
    ∀ (rl : RateLimiter) (levelStr ip : String) (q t₀ : Nat) (ts : List Nat),
      rl.requests = [] →
      LevelLessThan (NormalizeLogLevel levelStr) rl.minLevel = false →
      effectiveQuota rl (NormalizeLogLevel levelStr) = (q : Int) →
      1 ≤ q →
      ts.length = q →
      (∀ t ∈ ts, (t : Int) - (t₀ : Int) ≤ rl.window) →
      (runRequests rl levelStr ip (t₀ :: ts)).1 =
        List.replicate q true ++ [false] := by
  intro rl levelStr ip q t₀ ts hnil hlevel hq hq1 hlen hts
  obtain ⟨q', rfl⟩ : ∃ q', q = q' + 1 := ⟨q - 1, by omega⟩
  have htail :=
    runRequests_exhaust q' ts { rl with requests := [(ip, ⟨1, t₀⟩)] }
      levelStr ip ((q' + 1 : Nat) : Int) t₀ 1 (by omega) rfl hlevel hq hts
      (by push_cast; omega)
  have hstep : middlewareStep rl levelStr ip t₀ =
      (true, none, { rl with requests := [(ip, ⟨1, t₀⟩)] }) := by
    simp [middlewareStep, hlevel, hq, allow_of_nil, hnil]
  simp only [runRequests]
  rw [hstep]
  simp [htail, List.replicate_succ]

/-- Witness for claim C4 at quota 2: three requests inside one window give
allow, allow, deny. -/
theorem admit_quota_exhaustion_witness :
    (runRequests rlQuota "INFO" "1.2.3.4" [1, 2, 3]).1 =
      [true, true, false] := by
  have h :=
    admit_quota_exhaustion rlQuota "INFO" "1.2.3.4" 2 1 [2, 3] rfl
      (by decide) (by decide) (by decide) rfl (by decide)
  simpa using h

/-- Claim C7: whenever `Admit` denies a request, the returned `retryAfter`
equals `windowDuration` minus the elapsed time since the client's window
start and is never negative, and the denial response communicates it
rounded down to whole seconds. -/
theorem deny_retry_after :
    ∀ (rl : RateLimiter) (levelStr ip : String) (now : Nat) (c : Int) (t₀ : Nat),
      lookupClient ip rl.requests = some ⟨c, t₀⟩ →
      LevelLessThan (NormalizeLogLevel levelStr) rl.minLevel = false →
      ¬ ((now : Int) - (t₀ : Int) > rl.window) →
      c ≥ effectiveQuota rl (NormalizeLogLevel levelStr) →
      allow rl ip (effectiveQuota rl (NormalizeLogLevel levelStr)) now =
          (false, rl.window - ((now : Int) - (t₀ : Int)), rl)
        ∧ 0 ≤ rl.window - ((now : Int) - (t₀ : Int))
        ∧ middlewareStep rl levelStr ip now =
            (false,
              some (Int.tdiv (rl.window - ((now : Int) - (t₀ : Int))) 1000000000),
              rl)
        ∧ 0 ≤ Int.tdiv (rl.window - ((now : Int) - (t₀ : Int))) 1000000000 := by
  intro rl levelStr ip now c t₀ hlu hlevel hexp hcnt
  have hdeny := allow_tracked_deny rl ip _ now c t₀ hlu hexp hcnt
  have hra : 0 ≤ rl.window - ((now : Int) - (t₀ : Int)) := by omega
  have hsec : 0 ≤ Int.tdiv (rl.window - ((now : Int) - (t₀ : Int))) 1000000000 :=
    Int.tdiv_nonneg hra (by norm_num)
  refine ⟨hdeny, hra, ?_, hsec⟩
  simp [middlewareStep, hlevel, hdeny, not_lt.mpr hsec]

/-- Witness for claim C7: a saturated client denied mid-window gets
Retry-After 2 whole seconds for a remaining 2·10⁹ ns window. -/
theorem deny_retry_after_witness :
    middlewareStep rlDeny "INFO" "ip1" 1000000005 = (false, some 2, rlDeny) := by
  have h := (deny_retry_after rlDeny "INFO" "ip1" 1000000005 3 5 (by decide)
      (by decide) (by decide) (by decide)).2.2.1
  rw [h]
  decide

/-- Claim C8: for every tracked client whose window age exceeds
`windowDuration`, the next `Admit` call for that client is allowed and
resets its state to `count = 1` and `windowStart = now`. -/
theorem expired_window_reset :
    ∀ (rl : RateLimiter) (ip : String) (m : Int) (now : Nat) (c : Int) (t₀ : Nat),
      lookupClient ip rl.requests = some ⟨c, t₀⟩ →
      (now : Int) - (t₀ : Int) > rl.window →
      allow rl ip m now =
        (true, 0, { rl with requests := setClient ip ⟨1, now⟩ rl.requests }) := by
  intro rl ip m now c t₀ hlu hexp
  simp [allow, hlu, hexp]

/-- Witness for claim C8: a client whose window of 50 ns started at 10 is
admitted afresh at instant 100. -/
theorem expired_window_reset_witness :
    allow rlStale "ip2" 3 100 =
      (true, 0,
        { rlStale with requests := setClient "ip2" ⟨1, 100⟩ rlStale.requests }) :=
  expired_window_reset rlStale "ip2" 3 100 2 10 (by decide) (by decide)

/-- Claim C10: a request whose severity header is missing or does not
normalize to a recognized level gets ordinal 0 (that of TRACE) from the
ordering map, so it is admitted without being rate limited or tracked
whenever the configured minimum severity is strictly above TRACE. -/
theorem unrecognized_level_bypass :
    ∀ (rl : RateLimiter) (levelStr ip : String) (now : Nat),
      IsValidLogLevel levelStr = false →
      0 < orderMap rl.minLevel →
      middlewareStep rl levelStr ip now = (true, none, rl) := by
  intro rl levelStr ip now hinv hmin
  have h0 : orderMap (NormalizeLogLevel levelStr) = 0 :=
    orderMap_of_not_allowed _ hinv
  have hlt : LevelLessThan (NormalizeLogLevel levelStr) rl.minLevel = true := by
    unfold LevelLessThan
    rw [h0]
    exact decide_eq_true hmin
  simp [middlewareStep, hlt]

/-- Witness for claim C10: with minimum severity INFO, a request with an
absent level header is passed through and the table is untouched. -/
theorem unrecognized_level_bypass_witness :
    middlewareStep rlByp "" "1.2.3.4" 7 = (true, none, rlByp) :=
  unrecognized_level_bypass rlByp "" "1.2.3.4" 7 (by decide) (by decide)

/-- Claim C3 (amended): the constructor errors exactly when the baseline
quota is outside 1–100000 or the window duration is not strictly
positive; `maxClients` is not validated. -/
theorem newRateLimiter_validation :
    ∀ (maxRequests window maxClients : Int) (minLevel : String)
      (perLevelLimits : List (String × Int)),
      (NewRateLimiterWithLevel maxRequests window maxClients minLevel
          perLevelLimits).isOk = true ↔
        (1 ≤ maxRequests ∧ maxRequests ≤ 100000 ∧ 0 < window) := by
  intro mr w mc ml pll
  unfold NewRateLimiterWithLevel ValidateMaxRequests ValidateWindow
  split_ifs with h1 h2 <;> simp [Except.isOk, Except.toBool] <;> omega

/-- Counterexample to claim C3 as stated: with `maxClients = 0`, which is
not strictly positive, construction still succeeds. -/
theorem newRateLimiter_maxClients_unvalidated :
    (NewRateLimiterWithLevel 5 1 0 "INFO" []).isOk = true ∧ ¬ (0 : Int) > 0 := by
  constructor
  · decide
  · decide

/-- Claim C1, evaluated at the failing input: with `maxClients = 2`, after
three distinct clients each issue one request, all three are allowed and
all three remain tracked — `evictOldest` returns without evicting when the
table holds exactly `maxClients` entries, so the bound is exceeded instead
of enforced. -/
theorem eviction_gap_at_capacity :
    (allow rlEvict "1.1.1.1" 5 1).1 = true ∧
    (allow (allow rlEvict "1.1.1.1" 5 1).2.2 "2.2.2.2" 5 2).1 = true ∧
    (allow ((allow (allow rlEvict "1.1.1.1" 5 1).2.2 "2.2.2.2" 5 2).2.2)
        "3.3.3.3" 5 3).1 = true ∧
    lookupClient "3.3.3.3" evictRun.requests = some ⟨1, 3⟩ ∧
    evictRun.requests.map Prod.fst = ["1.1.1.1", "2.2.2.2", "3.3.3.3"] ∧
    evictRun.requests.length = 3 ∧
    rlEvict.maxClients = 2 := by
  decide

/-! ## Pagination validation and the Query window -/

theorem validatePageLimit_ok (page limit p q : Int)
    (h : ValidatePageLimit page limit = Except.ok (p, q)) :
    p = (if page < 1 then 1 else page) ∧
    q = (if limit < 1 then 10 else limit) := by
  simp only [ValidatePageLimit] at h
  split_ifs at h ⊢ <;> simp_all

theorem validatePageLimit_err (page limit : Int)
    (h : (if limit < 1 then (10 : Int) else limit) > 1000) :
    ValidatePageLimit page limit = Except.error "limit too large" := by
  simp only [ValidatePageLimit]
  rw [if_pos h]

theorem validatePageLimit_eq (page limit : Int)
    (h : ¬ (if limit < 1 then (10 : Int) else limit) > 1000) :
    ValidatePageLimit page limit =
      Except.ok
        (if page < 1 then 1 else page, if limit < 1 then 10 else limit) := by
  simp only [ValidatePageLimit]
  rw [if_neg h]

/-- Claim C9: a limit above 1000 is rejected with an explicit error
independently of the store contents (no rows are read), while page and
limit values below 1 are replaced by the defaults 1 and 10 rather than
rejected. -/
theorem queryLogs_limit_validation :
    ∀ (l : SQLiteLogger) (level : String) (page limit : Int),
      (1000 < limit →
        QueryLogs l level page limit = Except.error "limit too large")
      ∧ (limit < 1 →
        QueryLogs l level page limit = QueryLogs l level page 10)
      ∧ (page < 1 →
        QueryLogs l level page limit = QueryLogs l level 1 limit) := by
  intro l level page limit
  refine ⟨?_, ?_, ?_⟩
  · intro h
    have h1 : ¬ limit < 1 := by omega
    simp [QueryLogs, ValidatePageLimit, h1, h]
  · intro h
    simp [QueryLogs, ValidatePageLimit, h]
  · intro h
    simp [QueryLogs, ValidatePageLimit, h]

/-- Witness for claim C9: `limit = 1001` is rejected on an arbitrary
store; `limit = 0` behaves as the default 10 there. -/
theorem queryLogs_limit_validation_witness :
    QueryLogs c2Store "" 1 1001 = Except.error "limit too large" ∧
    QueryLogs c2Store "" 1 0 = QueryLogs c2Store "" 1 10 :=
  ⟨(queryLogs_limit_validation c2Store "" 1 1001).1 (by decide),
   (queryLogs_limit_validation c2Store "" 1 0).2.1 (by decide)⟩

/-- Claim C2 (amended): every successful Query result is ordered by
timestamp descending (the relative order of rows with equal timestamps is
not fixed by the query; this model realizes it as insertion order
ascending), and is the window of the ordered sequence starting at offset
`(page-1)*limit` of length at most `limit`, after defaulting. -/
theorem queryLogs_recency_window :
    ∀ (l : SQLiteLogger) (level : String) (page limit : Int) (rows : List Row),
      QueryLogs l level page limit = Except.ok rows →
      rows.Pairwise (fun a b => tsLe b.timestamp a.timestamp = true)
      ∧ rows =
          ((orderedRows l level).drop
            (((if page < 1 then 1 else page) - 1) *
              (if limit < 1 then 10 else limit)).toNat).take
            (if limit < 1 then 10 else limit).toNat
      ∧ rows.length ≤ (if limit < 1 then 10 else limit).toNat := by
  intro l level page limit rows h
  unfold QueryLogs at h
  cases hv : ValidatePageLimit page limit with
  | error e =>
    rw [hv] at h
    simp at h
  | ok pq =>
    obtain ⟨p, q⟩ := pq
    obtain ⟨hp, hq⟩ := validatePageLimit_ok page limit p q hv
    rw [hv] at h
    simp only [] at h
    split_ifs at h with hlv
    simp only [Except.ok.injEq] at h
    subst hp
    subst hq
    subst h
    refine ⟨?_, rfl, List.length_take_le _ _⟩
    have hsorted : List.Pairwise rowLeP (orderedRows l level) :=
      List.sorted_insertionSort rowLeP _
    have hsub :
        (((orderedRows l level).drop
            (((if page < 1 then 1 else page) - 1) *
              (if limit < 1 then 10 else limit)).toNat).take
            (if limit < 1 then 10 else limit).toNat).Sublist
          (orderedRows l level) :=
      (List.take_sublist _ _).trans (List.drop_sublist _ _)
    exact List.Pairwise.sublist hsub hsorted

/-- Counterexample to claim C2 as stated: two rows share a timestamp and
the query returns them in insertion order ascending (ids 1 then 2), not
by sequence id descending. -/
theorem queryLogs_tie_order_counterexample :
    QueryLogs c2Store "" 1 10 = Except.ok c2Rows ∧
    ¬ specRecencyOrdered c2Rows := by
  refine ⟨by rfl, ?_⟩
  intro hcontra
  simp only [specRecencyOrdered, c2Rows] at hcontra
  have h :=
    List.rel_of_pairwise_cons hcontra (List.mem_singleton_self _)
  rcases h with h | h
  · exact absurd h (by decide)
  · exact absurd h.2 (by decide)

/-- Witness for the amended claim C2 at a concrete store and query. -/
theorem queryLogs_recency_window_witness :
    QueryLogs c2Store "" 1 10 = Except.ok c2Rows ∧
    List.Pairwise (fun a b => tsLe b.timestamp a.timestamp = true) c2Rows :=
  ⟨by rfl, (queryLogs_recency_window c2Store "" 1 10 c2Rows (by rfl)).1⟩

/-! ## Append semantics -/

/-- Claim C6: `Write` returns an error exactly when the level does not
normalize to a recognized value or the INSERT itself fails; a recognized
level below the minimum is silently dropped with success; a context whose
serialization fails is replaced by the empty document and the entry is
still persisted. -/
theorem write_error_semantics :
    ∀ (l : SQLiteLogger) (level message ts : String) (ctxSer : Option String)
      (insertFails : Bool),
      ((Write l level message ts ctxSer insertFails).2 ≠ none ↔
        (IsValidLogLevel (NormalizeLogLevel level) = false ∨
          (LevelLessThan (NormalizeLogLevel level) l.minLevel = false ∧
            insertFails = true)))
      ∧ (IsValidLogLevel (NormalizeLogLevel level) = true →
          LevelLessThan (NormalizeLogLevel level) l.minLevel = true →
          Write l level message ts ctxSer insertFails = (l, none))
      ∧ (IsValidLogLevel (NormalizeLogLevel level) = true →
          LevelLessThan (NormalizeLogLevel level) l.minLevel = false →
          insertFails = false →
          ctxSer = none →
          Write l level message ts ctxSer insertFails =
            ({ l with
                rows := l.rows ++
                  [⟨l.nextId, NormalizeLogLevel level, message, ts, "\x7b\x7d"⟩]
                nextId := l.nextId + 1 }, none)) := by
  intro l level message ts ctxSer insertFails
  by_cases hv : IsValidLogLevel (NormalizeLogLevel level) = true
  · by_cases hb : LevelLessThan (NormalizeLogLevel level) l.minLevel = true
    · refine ⟨?_, fun _ _ => by simp [Write, hv, hb], fun _ hbf => by simp [hbf] at hb⟩
      simp [Write, hv, hb]
    · have hbf : LevelLessThan (NormalizeLogLevel level) l.minLevel = false :=
        Bool.not_eq_true _ ▸ Bool.of_not_eq_true hb
      cases insertFails
      · refine ⟨?_, fun _ hbt => by simp [hbt] at hbf, ?_⟩
        · simp [Write, hv, hbf]
        · intro _ _ _ hc
          subst hc
          simp [Write, hv, hbf]
      · refine ⟨?_, fun _ hbt => by simp [hbt] at hbf, fun _ _ hf => by simp at hf⟩
        simp [Write, hv, hbf]
  · have hvf : IsValidLogLevel (NormalizeLogLevel level) = false :=
      Bool.not_eq_true _ ▸ Bool.of_not_eq_true hv
    refine ⟨?_, fun hvt => by simp [hvt] at hvf, fun hvt => by simp [hvt] at hvf⟩
    simp [Write, hvf]

/-- Witness for claim C6: a valid level at the minimum, a failing context
serialization, and a succeeding INSERT produce a persisted row with the
empty document and no error. -/
theorem write_error_semantics_witness :
    Write (NewSQLiteLogger 0 "TRACE") "info" "hello" "t1" none false =
      ({ NewSQLiteLogger 0 "TRACE" with
          rows := [⟨(NewSQLiteLogger 0 "TRACE").nextId,
            NormalizeLogLevel "info", "hello", "t1", "\x7b\x7d"⟩]
          nextId := (NewSQLiteLogger 0 "TRACE").nextId + 1 }, none) :=
  (write_error_semantics (NewSQLiteLogger 0 "TRACE") "info" "hello" "t1"
      none false).2.2 (by decide) (by decide) rfl rfl

/-! ## Retention sweep -/

theorem orderedInsert_append_last (a : Nat) :
    ∀ l : List Nat, (∀ b ∈ l, ¬ idDescLe a b) →
      List.orderedInsert idDescLe a l = l ++ [a] := by
  intro l
  induction l with
  | nil => intro _; rfl
  | cons b l ih =>
    intro h
    rw [List.orderedInsert, if_neg (h b (by simp))]
    rw [ih (fun x hx => h x (by simp [hx]))]
    rfl

theorem insertionSort_desc_of_ascending :
    ∀ l : List Nat, l.Pairwise (fun a b => a < b) →
      List.insertionSort idDescLe l = l.reverse := by
  intro l
  induction l with
  | nil => intro _; rfl
  | cons x l ih =>
    intro h
    have hx := (List.pairwise_cons.mp h).1
    have ht := (List.pairwise_cons.mp h).2
    simp only [List.insertionSort]
    rw [ih ht, orderedInsert_append_last x l.reverse, List.reverse_cons]
    intro b hb
    have hxb := hx b (List.mem_reverse.mp hb)
    simp only [idDescLe]
    omega

theorem filter_id_mem_suffix :
    ∀ (pre suf : List Row),
      (pre ++ suf).Pairwise (fun a b => a.id < b.id) →
      (pre ++ suf).filter (fun r => decide (r.id ∈ suf.map Row.id)) = suf := by
  intro pre
  induction pre with
  | nil =>
    intro suf h
    simp only [List.nil_append]
    apply List.filter_eq_self.mpr
    intro r hr
    simp only [decide_eq_true_eq]
    exact List.mem_map_of_mem Row.id hr
  | cons p pre ih =>
    intro suf h
    have h' : (p :: (pre ++ suf)).Pairwise (fun a b => a.id < b.id) := by
      simpa using h
    have hhead := (List.pairwise_cons.mp h').1
    have htail := (List.pairwise_cons.mp h').2
    have hp : ¬ p.id ∈ suf.map Row.id := by
      intro hmem
      obtain ⟨s, hs, hsid⟩ := List.mem_map.mp hmem
      have := hhead s (List.mem_append_right pre hs)
      omega
    simp only [List.cons_append, List.filter_cons, decide_eq_true_eq]
    rw [if_neg hp]
    exact ih suf htail

/-- Claim C5: with a positive row bound, one retention sweep keeps exactly
the `maxRows` most recently inserted rows — recency measured by the
sequence id, not by timestamps — and in the maxRows=5, 10-appends
scenario (with backdated timestamps) the subsequent
`Query(page=1, limit=20)` returns at most 5 rows: exactly the 5 most
recently inserted entries. -/
theorem cleanup_keeps_most_recent :
    (∀ l : SQLiteLogger, 0 < l.maxRows →
        l.rows.Pairwise (fun a b => a.id < b.id) →
        (cleanup l).rows = l.rows.drop (l.rows.length - l.maxRows.toNat))
      ∧ QueryLogs (cleanup c5Store) "" 1 20 =
          Except.ok
            [⟨6, "INFO", "m6", "t05", ""⟩, ⟨7, "INFO", "m7", "t04", ""⟩,
             ⟨8, "INFO", "m8", "t03", ""⟩, ⟨9, "INFO", "m9", "t02", ""⟩,
             ⟨10, "INFO", "m10", "t01", ""⟩]
      ∧ (cleanup c5Store).rows.map Row.id = [6, 7, 8, 9, 10] := by
  refine ⟨?_, by rfl, by rfl⟩
  intro l hk hasc
  have hnot : ¬ l.maxRows ≤ 0 := by omega
  have hids : (l.rows.map Row.id).Pairwise (fun a b => a < b) :=
    List.pairwise_map.mpr hasc
  have hrows : (cleanup l).rows =
      l.rows.filter (fun r => decide (r.id ∈ topIds l)) := by
    simp [cleanup, hnot]
  have hlen : (l.rows.map Row.id).length = l.rows.length := List.length_map _ _
  have htop : topIds l =
      ((l.rows.map Row.id).drop
        (l.rows.length - l.maxRows.toNat)).reverse := by
    unfold topIds
    rw [insertionSort_desc_of_ascending _ hids, List.reverse_drop, hlen]
    by_cases hkn : l.maxRows.toNat ≤ l.rows.length
    · have he : l.rows.length - (l.rows.length - l.maxRows.toNat) =
          l.maxRows.toNat := by omega
      rw [he]
    · have h0 : l.rows.length - l.maxRows.toNat = 0 := by omega
      rw [h0, Nat.sub_zero]
      rw [List.take_of_length_le (by simp [hlen]; omega),
        List.take_of_length_le (by simp [hlen])]
  have hcong : l.rows.filter (fun r => decide (r.id ∈ topIds l)) =
      l.rows.filter (fun r => decide (r.id ∈
        (l.rows.drop (l.rows.length - l.maxRows.toNat)).map Row.id)) := by
    apply List.filter_congr
    intro r _
    rw [htop]
    simp only [decide_eq_decide, List.mem_reverse, List.map_drop]
  have hsplit := filter_id_mem_suffix
    (l.rows.take (l.rows.length - l.maxRows.toNat))
    (l.rows.drop (l.rows.length - l.maxRows.toNat))
    (by rw [List.take_append_drop]; exact hasc)
  rw [List.take_append_drop] at hsplit
  rw [hrows, hcong, hsplit]

/-- Witness for claim C5's general clause, instantiated at the concrete
ten-row store. -/
theorem cleanup_keeps_most_recent_witness :
    (cleanup c5Store).rows =
      c5Store.rows.drop (c5Store.rows.length - c5Store.maxRows.toNat) :=
  cleanup_keeps_most_recent.1 c5Store (by decide) (by decide)

end LoggerServer
